import Mathlib

/-!
Verification development for the touchHLE `CALayer` implementation
(`src/frameworks/core_animation/ca_layer.rs`) and the POSIX I/O shim
(`src/libc/posix_io.rs`).

The Rust code is shallowly embedded: guest `CGFloat` values are modelled as
exact rationals, object references (`id`) as `Option Nat` (with `none` for
`nil`), the reference-counting substrate as explicit per-object counters, and
host panics (`unwrap`/`assert!` failures) as `Option.none` results.
-/

namespace CALayerModel

/-- The `CGPoint` type from the source's core graphics types. -/
structure CGPoint where
  x : ℚ
  y : ℚ
deriving DecidableEq

/-- The `CGSize` type from the source's core graphics types. -/
structure CGSize where
  width : ℚ
  height : ℚ
deriving DecidableEq

/-- The `CGRect` type from the source's core graphics types. -/
structure CGRect where
  origin : CGPoint
  size : CGSize
deriving DecidableEq

/-- The delegate's class, as seen by the runtime-introspection queries that
`displayIfNeeded` performs (`class_has_method_named "displayLayer:"`,
`class_is_subclass_of(_, UIView)`, and the two
`class_overrides_method_of_superclass` checks for `drawRect:` and
`drawLayer:inContext:` relative to `UIView`). -/
structure DelegateClass where
  has_display_layer : Bool
  is_uiview_subclass : Bool
  overrides_draw_rect : Bool
  overrides_draw_layer : Bool
deriving DecidableEq

/-- Per-layer state: the fields of `CALayerHostObject`.
`id`-typed fields are `Option Nat` (`none` is `nil`); the `cg_context` field
holds a context id. The source's `presented_pixels` and `gles_texture`
compositor-internal fields are irrelevant to every operation modelled here and
are kept as plain data. -/
structure CALayerHostObject where
  delegate : Option Nat
  sublayers : List Nat
  superlayer : Option Nat
  bounds : CGRect
  position : CGPoint
  anchor_point : CGPoint
  hidden : Bool
  /-- source field: `opaque` (visual attribute; read/written only by its plain
  accessors) -/
  opaq : Bool
  opacity : ℚ
  background_color : Option Nat
  needs_display : Bool
  contents : Option Nat
  drawable_properties : Option Nat
  cg_context : Option Nat
  gles_texture : Option Nat
  gles_texture_is_up_to_date : Bool
deriving DecidableEq

/-- The defaults installed by `+[CALayer alloc]`. -/
def allocLayer : CALayerHostObject where
  delegate := none
  sublayers := []
  superlayer := none
  bounds := { origin := { x := 0, y := 0 }, size := { width := 0, height := 0 } }
  position := { x := 0, y := 0 }
  anchor_point := { x := 1/2, y := 1/2 }
  hidden := false
  opaq := false
  opacity := 1
  background_color := none
  needs_display := true
  contents := none
  drawable_properties := none
  cg_context := none
  gles_texture := none
  gles_texture_is_up_to_date := false

/-- Method `-[CALayer frame]`: derived from `bounds`, `position` and `anchor_point`. -/
def frame (l : CALayerHostObject) : CGRect where
  origin :=
    { x := l.position.x - l.bounds.size.width * l.anchor_point.x
      y := l.position.y - l.bounds.size.height * l.anchor_point.y }
  size := l.bounds.size

/-- Method `-[CALayer setFrame:]`: writes `position` and `bounds`, leaving
`anchor_point` untouched. -/
def setFrame (l : CALayerHostObject) (f : CGRect) : CALayerHostObject :=
  { l with
    position :=
      { x := f.origin.x + f.size.width * l.anchor_point.x
        y := f.origin.y + f.size.height * l.anchor_point.y }
    bounds := { origin := { x := 0, y := 0 }, size := f.size } }

/-- Pointwise update of a map from object/context ids, used to model writes to
the object store. -/
def upd {α : Type} (f : Nat → α) (i : Nat) (a : α) : Nat → α :=
  fun j => if j = i then a else f j

/-- The object environment: the layer store (`env.objc` host objects), the
Objective-C strong reference counts (`retain`/`release`), the Core Foundation
reference counts used for colors (`CFRetain`/`CFRelease`), the registry of
bitmap-context dimensions (`CGBitmapContextGetWidth`/`Height`), the list of
contexts released so far (`CGContextRelease`), a fresh-context counter for
`CGBitmapContextCreate`, the per-class introspection data used by
`displayIfNeeded`, and the list of objects torn down by `dealloc_object`. -/
structure Env where
  layers : Nat → CALayerHostObject
  refcount : Nat → Int
  cf_count : Nat → Int
  ctxs : Nat → Nat × Nat
  released_ctxs : List Nat
  next_ctx : Nat
  classOf : Nat → DelegateClass
  freed : List Nat

/-- Write one layer object back into the store. -/
def setLayer (e : Env) (i : Nat) (l : CALayerHostObject) : Env :=
  { e with layers := upd e.layers i l }

/-- Function `retain` from the objc substrate: increments the strong count (tolerates
`nil`, which the callers here never pass for the non-`nil` case). -/
def retain (e : Env) (i : Nat) : Env :=
  { e with refcount := upd e.refcount i (e.refcount i + 1) }

/-- Function `release` from the objc substrate: decrements the strong count. Teardown at
zero is the substrate's business and is outside this model. -/
def release (e : Env) (i : Nat) : Env :=
  { e with refcount := upd e.refcount i (e.refcount i - 1) }

/-- Function `CFRetain` (the Core Foundation variant used for colors; does not tolerate
`nil`, so its callers guard it). -/
def CFRetain (e : Env) (i : Nat) : Env :=
  { e with cf_count := upd e.cf_count i (e.cf_count i + 1) }

/-- Function `CFRelease` (guarded by callers, like `CFRetain`). -/
def CFRelease (e : Env) (i : Nat) : Env :=
  { e with cf_count := upd e.cf_count i (e.cf_count i - 1) }

/-- Function `CGContextRelease`: records the context id as released. -/
def CGContextRelease (e : Env) (c : Nat) : Env :=
  { e with released_ctxs := c :: e.released_ctxs }

/-- Method `-[CALayer removeFromSuperlayer]`. Mirrors the source order:
`std::mem::take` clears the `superlayer` field first; if it was `nil` the
method returns; otherwise the layer is located by identity in the former
parent's `sublayers` (the `position(..).unwrap()` panic on absence is the
`none` result), removed, and released. -/
def removeFromSuperlayer (e : Env) (this : Nat) : Option Env :=
  let sl := (e.layers this).superlayer
  let e0 := setLayer e this { e.layers this with superlayer := none }
  match sl with
  | none => some e0
  | some p =>
    let subs := (e0.layers p).sublayers
    if this ∈ subs then
      let e1 := setLayer e0 p { e0.layers p with sublayers := subs.erase this }
      some (release e1 this)
    else
      none

/-- Modelled from the spec: `bringSublayerToFront:` is dispatched by
`addSublayer:` but its implementation is not among the provided source files.
Spec §4.2: when the child's superlayer is already the parent, `addSublayer` is
"equivalent to bring to front (remove-then-append, i.e. move child to the end
of `sublayers`, making it frontmost)", and the only side effects of tree
mutation are the reference-count changes explicitly listed, so this operation
changes no reference count. -/
def bringSublayerToFront (e : Env) (this layer : Nat) : Env :=
  setLayer e this
    { e.layers this with
      sublayers := ((e.layers this).sublayers.erase layer) ++ [layer] }

/-- Method `-[CALayer addSublayer:]`. -/
def addSublayer (e : Env) (this layer : Nat) : Option Env :=
  if (e.layers layer).superlayer = some this then
    some (bringSublayerToFront e this layer)
  else
    let e1 := retain e layer
    match removeFromSuperlayer e1 layer with
    | none => none
    | some e2 =>
      let e3 := setLayer e2 layer { e2.layers layer with superlayer := some this }
      some (setLayer e3 this
        { e3.layers this with sublayers := (e3.layers this).sublayers ++ [layer] })

/-- Method `-[CALayer setBackgroundColor:]`, statement for statement:
line 241 stores `new_color` into the field; then `std::mem::replace` reads the
(already overwritten) field as `old_color` and stores `new_color` again; then
`CFRetain(new_color)` and `CFRelease(old_color)`, each guarded against `nil`. -/
def setBackgroundColor (e : Env) (this : Nat) (new_color : Option Nat) : Env :=
  let eA := setLayer e this { e.layers this with background_color := new_color }
  let old_color := (eA.layers this).background_color
  let eB := setLayer eA this { eA.layers this with background_color := new_color }
  let eC := match new_color with
    | some c => CFRetain eB c
    | none => eB
  match old_color with
  | some c => CFRelease eC c
  | none => eC

/-- Method `-[CALayer setContents:]`: invalidates the texture cache, swaps the stored
reference, retains the new value, then releases the old one (the objc
`retain`/`release` tolerate `nil`, modelled by the `Option` match). -/
def setContents (e : Env) (this : Nat) (new_contents : Option Nat) : Env :=
  let l := e.layers this
  let old_contents := l.contents
  let e1 := setLayer e this
    { l with gles_texture_is_up_to_date := false, contents := new_contents }
  let e2 := match new_contents with
    | some c => retain e1 c
    | none => e1
  match old_contents with
  | some c => release e2 c
  | none => e2

/-- The per-sublayer step of `dealloc`'s teardown loop: clear the child's
weak `superlayer` back-reference, then release the strong reference the
parent held. -/
def detachSublayer (acc : Env) (s : Nat) : Env :=
  release (setLayer acc s { acc.layers s with superlayer := none }) s

/-- Method `-[CALayer dealloc]`. Releases the owned references (guarded against
`nil`), releases the cached bitmap context, asserts `superlayer == nil`
(panic modelled as `none`), then detaches and releases every remaining
sublayer and finally deallocates the object. -/
def dealloc (e : Env) (this : Nat) : Option Env :=
  let l := e.layers this
  let subs := l.sublayers
  let e0 := setLayer e this { l with sublayers := [] }
  let e1 := match l.drawable_properties with
    | some d => release e0 d
    | none => e0
  let e2 := match l.contents with
    | some c => release e1 c
    | none => e1
  let e3 := match l.background_color with
    | some c => CFRelease e2 c
    | none => e2
  let e4 := match l.cg_context with
    | some c => CGContextRelease e3 c
    | none => e3
  if l.superlayer ≠ none then
    none
  else
    let e5 := subs.foldl detachSublayer e4
    some { e5 with freed := this :: e5.freed }

/-- Method `-[CALayer setNeedsDisplay]`: forces the dirty flag unconditionally. -/
def setNeedsDisplay (e : Env) (this : Nat) : Env :=
  setLayer e this { e.layers this with needs_display := true }

/-- The guest-visible effects of one `displayIfNeeded` pass: the delegate
callbacks dispatched (`displayLayer:`, `drawLayer:inContext:`) and the
"skipped render" diagnostic for container-like delegates. -/
inductive RenderEvent
  | displayLayer (layer : Nat)
  | drawLayerInContext (layer ctx : Nat)
  | skippedRender
deriving DecidableEq

/-- True for the events that invoke a delegate callback. -/
def RenderEvent.isCallback : RenderEvent → Bool
  | .displayLayer _ => true
  | .drawLayerInContext _ _ => true
  | .skippedRender => false

/-- Number of delegate callbacks among a pass's events. -/
def countCallbacks (evs : List RenderEvent) : Nat :=
  evs.countP RenderEvent.isCallback

/-- Result of a `displayIfNeeded` pass: the updated environment, the events,
and the context handed to `drawLayer:inContext:` (if the bitmap path ran). -/
structure DisplayResult where
  env : Env
  events : List RenderEvent
  usedCtx : Option Nat

/-- Rounding `size.width.round() as GuestUSize` / `size.height.round() as GuestUSize`:
round half away from zero, then saturate into `u32` (negative values to 0).
Written with `Rat.floor` so that it evaluates by kernel reduction;
`roundToUSize_eq_round` below identifies it with Mathlib's `round` (for
nonpositive inputs both saturate to 0, so the rounding-mode difference on
negative halves is immaterial). -/
def roundToUSize (q : ℚ) : Nat :=
  min (Rat.floor (q + 1 / 2)).toNat (2 ^ 32 - 1)

/-- The `CGBitmapContextCreate` call in `displayIfNeeded`: the bytes-per-row
argument is `int_width.checked_mul(4).unwrap()`, whose `u32` overflow is a
panic (`none`); otherwise a fresh context of exactly the given integer
dimensions is allocated, recorded in the layer's `cg_context` cache, and
returned. -/
def createLayerContext (e : Env) (this int_width int_height : Nat) :
    Option (Env × Nat) :=
  if 2 ^ 32 ≤ int_width * 4 then
    none
  else
    let c := e.next_ctx
    let e1 := { e with
      ctxs := upd e.ctxs c (int_width, int_height)
      next_ctx := c + 1 }
    some (setLayer e1 this { e1.layers this with cg_context := some c }, c)

/-- Clearing the dirty flag (`std::mem::take(needs_display)` writes `false`). -/
def clearNeedsDisplay (e : Env) (this : Nat) : Env :=
  setLayer e this { e.layers this with needs_display := false }

/-- Method `-[CALayer displayIfNeeded]`. The delegate callbacks are modelled as
events without guest-side mutation, matching the "no intervening mutation"
provisos of the properties proved below; the `CGContextTranslateCTM` pair
only adjusts external context state and is not modelled. The body mirrors the
source: read-and-clear the dirty flag; return if clean or if the delegate is
`nil`; `displayLayer:` takes precedence; a `UIView` subclass overriding
neither `drawRect:` nor `drawLayer:inContext:` skips rendering; otherwise the
texture cache is invalidated and the bitmap path runs, with the source's
`need_new_context` computation reproduced verbatim (size match yields `true`,
size mismatch releases the cached context and yields `false`, absence yields
`true`), finally dispatching `drawLayer:inContext:` on the chosen context. -/
def displayIfNeeded (e : Env) (this : Nat) : Option DisplayResult :=
  let l := e.layers this
  let eT := clearNeedsDisplay e this
  if l.needs_display = false then
    some ⟨eT, [], none⟩
  else
    match l.delegate with
    | none => some ⟨eT, [], none⟩
    | some d =>
      let cls := eT.classOf d
      if cls.has_display_layer then
        some ⟨eT, [.displayLayer this], none⟩
      else if cls.is_uiview_subclass
          ∧ cls.overrides_draw_rect = false
          ∧ cls.overrides_draw_layer = false then
        some ⟨eT, [.skippedRender], none⟩
      else
        let l1 := eT.layers this
        let e1 := setLayer eT this { l1 with gles_texture_is_up_to_date := false }
        let int_width := roundToUSize l1.bounds.size.width
        let int_height := roundToUSize l1.bounds.size.height
        match l1.cg_context with
        | some c =>
          if (e1.ctxs c).1 = int_width ∧ (e1.ctxs c).2 = int_height then
            match createLayerContext e1 this int_width int_height with
            | none => none
            | some (e2, cNew) =>
              some ⟨e2, [.drawLayerInContext this cNew], some cNew⟩
          else
            let e2 := CGContextRelease e1 c
            some ⟨e2, [.drawLayerInContext this c], some c⟩
        | none =>
          match createLayerContext e1 this int_width int_height with
          | none => none
          | some (e2, cNew) =>
            some ⟨e2, [.drawLayerInContext this cNew], some cNew⟩

/-- The superlayer field as a successor map on layer ids. -/
def superF (e : Env) : Nat → Option Nat :=
  fun i => (e.layers i).superlayer

/-- Reachability along a successor map (here: the `superlayer` chain), i.e.
the transitive closure of the parent edge. -/
inductive Reach (s : Nat → Option Nat) : Nat → Nat → Prop
  | single {i j : Nat} : s i = some j → Reach s i j
  | head {i j k : Nat} : s i = some j → Reach s j k → Reach s i k

/-- The layer tree has no cycle: no layer is its own strict ancestor. -/
def AcyclicE (e : Env) : Prop :=
  ∀ i, ¬ Reach (superF e) i i

/-- A baseline environment: every slot holds a freshly allocated layer, all
strong counts 1, no contexts allocated, a delegate class with no drawing
capability. Concrete test environments below are updates of this one. -/
def baseEnv : Env where
  layers := fun _ => allocLayer
  refcount := fun _ => 1
  cf_count := fun _ => 0
  ctxs := fun _ => (0, 0)
  released_ctxs := []
  next_ctx := 0
  classOf := fun _ => ⟨false, false, false, false⟩
  freed := []

/-- Test environment: a dirty layer 0 whose delegate (object 7) is a `UIView`
subclass overriding `drawRect:`, with `bounds.size = (10, 10)` and a cached
bitmap context (id 0) whose recorded size is `(5, 5)` — the stale-context
case of the bitmap path. -/
def mismatchEnv : Env :=
  { baseEnv with
    layers := upd baseEnv.layers 0
      { allocLayer with
        needs_display := true
        delegate := some 7
        bounds := { origin := { x := 0, y := 0 }
                    size := { width := 10, height := 10 } }
        cg_context := some 0 }
    ctxs := fun _ => (5, 5)
    next_ctx := 1
    classOf := fun _ => ⟨false, true, true, false⟩ }

/-- Like `mismatchEnv`, but the cached context's recorded size `(10, 10)`
matches the rounded bounds — the reuse case of the bitmap path. -/
def matchEnv : Env :=
  { mismatchEnv with ctxs := fun _ => (10, 10) }

/-- Test environment: layer 0's `backgroundColor` is color 0 (CF count 3);
colors 1 and 2 (CF counts 5 and 7) are about to be assigned. -/
def colorEnv : Env :=
  { baseEnv with
    layers := upd baseEnv.layers 0 { allocLayer with background_color := some 0 }
    cf_count := fun n => if n = 0 then 3 else if n = 1 then 5 else 7 }

/-- Test environment: two detached layers 0 and 1 (the baseline already is
exactly that). -/
def detachedEnv : Env := baseEnv

/-- Test environment: layer 1 is attached as the only sublayer of layer 0. -/
def attachedEnv : Env :=
  { baseEnv with
    layers := fun n =>
      if n = 0 then { allocLayer with sublayers := [1] }
      else if n = 1 then { allocLayer with superlayer := some 0 }
      else allocLayer }

/-- Test environment: a dirty layer 0 whose delegate (object 3) defines
`displayLayer:`. -/
def displayLayerEnv : Env :=
  { baseEnv with
    layers := upd baseEnv.layers 0
      { allocLayer with needs_display := true, delegate := some 3 }
    classOf := fun _ => ⟨true, false, false, false⟩ }

/-- Test environment: a dirty layer 0 whose delegate (object 3) is a plain
`UIView` overriding neither drawing hook. -/
def containerEnv : Env :=
  { baseEnv with
    layers := upd baseEnv.layers 0
      { allocLayer with needs_display := true, delegate := some 3 }
    classOf := fun _ => ⟨false, true, false, false⟩ }

/-- Test environment: a dirty layer 0 with no delegate. -/
def noDelegateEnv : Env :=
  { baseEnv with
    layers := upd baseEnv.layers 0 { allocLayer with needs_display := true } }

end CALayerModel

namespace PosixIOModel

/-- An entry of the descriptor table (`files: Vec<Option<PosixFileHostObject>>`);
the wrapped `GuestFile` is opaque to this subsystem and modelled as a handle. -/
structure PosixFileHostObject where
  file : Nat
deriving DecidableEq

/-- Constant `NORMAL_FILENO_BASE = STDERR_FILENO + 1 = 3`. -/
def NORMAL_FILENO_BASE : Int := 3

/-- Function `fd_to_file_idx`: `fd.checked_sub(NORMAL_FILENO_BASE).unwrap() as usize`.
The `checked_sub` on `i32` yields `None` (an `unwrap` panic, our `none`)
exactly when the subtraction leaves the `i32` range; the `as usize` cast
reinterprets the sign-extended difference modulo `2^64`. -/
def fd_to_file_idx (fd : Int) : Option Nat :=
  if fd - NORMAL_FILENO_BASE < -(2 ^ 31) then
    none
  else
    some ((fd - NORMAL_FILENO_BASE) % 2 ^ 64).toNat

/-- Outcome of a guest `read` call: a host panic or a returned `GuestISize`. -/
inductive PosixRet
  | panic
  | ret (n : Int)
deriving DecidableEq

/-- Function `read(fd, buffer, size)`. The descriptor lookup is
`file_for_fd(fd).unwrap()`: `files.get_mut(idx)` composed with `as_mut`, so a
panicking index conversion, an out-of-range index, or an empty slot all panic.
The underlying `GuestFile::read` on the open file is external and passed in as
`ioResult`; `Ok(n)` is returned through `n.try_into::<i32>().unwrap()` (a
panic above `i32::MAX`), `Err(_)` returns the `-1` sentinel. The guest buffer
access is assumed in bounds (a fault there is the memory subsystem's panic,
outside this model). -/
def read (st : List (Option PosixFileHostObject)) (fd : Int)
    (ioResult : Except Unit Nat) : PosixRet :=
  match fd_to_file_idx fd with
  | none => .panic
  | some idx =>
    match st[idx]? with
    | none => .panic
    | some none => .panic
    | some (some _f) =>
      match ioResult with
      | .ok n => if n < 2 ^ 31 then .ret (n : Int) else .panic
      | .error _ => .ret (-1)

/-- Outcome of a guest `close` call: a host panic, or a returned status
together with the updated descriptor table. -/
inductive CloseRet
  | panic
  | ret (n : Int) (st : List (Option PosixFileHostObject))
deriving DecidableEq

/-- The status value of a `close` outcome, `none` on panic. -/
def CloseRet.retval : CloseRet → Option Int
  | .panic => none
  | .ret n _ => some n

/-- Function `close(fd)`: `files[fd_to_file_idx(fd)].take().unwrap()` — a panicking
index conversion, an out-of-range index (the `Vec` indexing panic), or an
empty slot (the `unwrap` on the taken `None`) all panic; otherwise the slot is
emptied and the status reports whether the external `sync_all` flush
succeeded (`0`) or failed (`-1`). -/
def close (st : List (Option PosixFileHostObject)) (fd : Int)
    (syncOk : Bool) : CloseRet :=
  match fd_to_file_idx fd with
  | none => .panic
  | some idx =>
    match st[idx]? with
    | none => .panic
    | some none => .panic
    | some (some _f) =>
      .ret (if syncOk then 0 else -1) (st.set idx none)

/-- A descriptor is currently open: it maps to an occupied slot of the table.
Exactly the descriptors handed out by `open` and not yet closed are of this
form. -/
def fdIsOpenB (st : List (Option PosixFileHostObject)) (fd : Int) : Bool :=
  match fd_to_file_idx fd with
  | none => false
  | some idx =>
    match st[idx]? with
    | some (some _) => true
    | _ => false

/-- Test descriptor table: a single open file in slot 0 (descriptor 3). -/
def testTable : List (Option PosixFileHostObject) := [some ⟨0⟩]

end PosixIOModel

namespace CALayerModel

/-- Pointwise-update helper lemma. -/
theorem upd_self {α : Type} (f : Nat → α) (i : Nat) (a : α) : upd f i a i = a := by
  simp [upd]

/-- Pointwise-update helper lemma. -/
theorem upd_ne {α : Type} (f : Nat → α) {i j : Nat} (a : α) (h : j ≠ i) :
    upd f i a j = f j := by
  simp [upd, h]

/-- C3: for every layer and every rectangle F, `setFrame F` followed by reading
`frame` returns exactly F (the embedding uses exact rational arithmetic, so the
round-trip holds with zero error, hence within any floating-point tolerance);
`setFrame` sets `position = frame.origin + frame.size * anchorPoint` and
`bounds = ((0,0), frame.size)`, and never modifies `anchorPoint`. -/
theorem setFrame_frame_roundtrip (l : CALayerHostObject) (f : CGRect) :
    frame (setFrame l f) = f ∧
    (setFrame l f).anchor_point = l.anchor_point ∧
    (setFrame l f).position =
      { x := f.origin.x + f.size.width * l.anchor_point.x
        y := f.origin.y + f.size.height * l.anchor_point.y } ∧
    (setFrame l f).bounds = { origin := { x := 0, y := 0 }, size := f.size } := by
  obtain ⟨⟨fx, fy⟩, ⟨fw, fh⟩⟩ := f
  refine ⟨?_, rfl, rfl, rfl⟩
  have hx : fx + fw * l.anchor_point.x - fw * l.anchor_point.x = fx := by ring
  have hy : fy + fh * l.anchor_point.y - fh * l.anchor_point.y = fy := by ring
  simp [frame, setFrame, hx, hy]

/-- The rounding used by the bitmap path agrees with Mathlib's `round`
(half rounds up, matching `f32::round` on the nonnegative values that survive
the `u32` saturation). -/
theorem roundToUSize_eq_round (q : ℚ) :
    roundToUSize q = min (round q).toNat (2 ^ 32 - 1) := by
  rw [roundToUSize, round_eq]
  rfl

@[simp]
theorem setLayer_layers_self (e : Env) (i : Nat) (l : CALayerHostObject) :
    (setLayer e i l).layers i = l := by
  simp [setLayer, upd]

theorem setLayer_layers_ne (e : Env) {i j : Nat} (l : CALayerHostObject) (h : j ≠ i) :
    (setLayer e i l).layers j = e.layers j := by
  simp [setLayer, upd, h]

@[simp]
theorem clearNeedsDisplay_classOf (e : Env) (i : Nat) :
    (clearNeedsDisplay e i).classOf = e.classOf := rfl

@[simp]
theorem clearNeedsDisplay_layers_self (e : Env) (i : Nat) :
    ((clearNeedsDisplay e i).layers i).needs_display = false := by
  simp [clearNeedsDisplay]

/-- Unpacking a successful `CGBitmapContextCreate` step. -/
theorem createLayerContext_spec {e : Env} {this w hh : Nat} {e2 : Env} {c : Nat}
    (h : createLayerContext e this w hh = some (e2, c)) :
    c = e.next_ctx ∧ w * 4 < 2 ^ 32 ∧
    e2 = setLayer
      { e with ctxs := upd e.ctxs e.next_ctx (w, hh), next_ctx := e.next_ctx + 1 }
      this { e.layers this with cg_context := some e.next_ctx } := by
  simp only [createLayerContext] at h
  split at h
  · simp at h
  · next hlt =>
    simp only [Option.some.injEq, Prod.mk.injEq] at h
    exact ⟨h.2.symm, by omega, h.1.symm⟩

/-- Every successful `displayIfNeeded` pass leaves the dirty flag cleared and
dispatches at most one delegate callback. -/
theorem display_post (e : Env) (this : Nat) (r : DisplayResult)
    (h : displayIfNeeded e this = some r) :
    (r.env.layers this).needs_display = false ∧ countCallbacks r.events ≤ 1 := by
  simp only [displayIfNeeded] at h
  split at h
  · injection h with h; subst h
    exact ⟨by simp, by simp [countCallbacks]⟩
  · split at h
    · injection h with h; subst h
      exact ⟨by simp, by simp [countCallbacks]⟩
    · split at h
      · injection h with h; subst h
        exact ⟨by simp, by simp [countCallbacks, List.countP_cons,
          RenderEvent.isCallback]⟩
      · split at h
        · injection h with h; subst h
          exact ⟨by simp, by simp [countCallbacks, List.countP_cons,
            RenderEvent.isCallback]⟩
        · split at h
          · split at h
            · split at h
              · simp at h
              · next p heq =>
                obtain ⟨hc, hlt, he2⟩ := createLayerContext_spec heq
                injection h with h; subst h
                refine ⟨?_, by simp [countCallbacks, List.countP_cons,
                  RenderEvent.isCallback]⟩
                rw [he2]
                simp
            · injection h with h; subst h
              refine ⟨?_, by simp [countCallbacks, List.countP_cons,
                RenderEvent.isCallback]⟩
              simp [CGContextRelease]
          · split at h
            · simp at h
            · next p heq =>
              obtain ⟨hc, hlt, he2⟩ := createLayerContext_spec heq
              injection h with h; subst h
              refine ⟨?_, by simp [countCallbacks, List.countP_cons,
                RenderEvent.isCallback]⟩
              rw [he2]
              simp

/-- A clean layer's `displayIfNeeded` is a no-op returning the environment
unchanged. -/
theorem displayIfNeeded_noop (e : Env) (this : Nat)
    (h : (e.layers this).needs_display = false) :
    displayIfNeeded e this = some ⟨e, [], none⟩ := by
  have hl : ({ e.layers this with needs_display := false } : CALayerHostObject)
      = e.layers this := by
    rw [← h]
  have hupd : upd e.layers this (e.layers this) = e.layers := by
    funext j
    by_cases hj : j = this
    · subst hj; simp [upd]
    · simp [upd, hj]
  have h2 : clearNeedsDisplay e this = e := by
    unfold clearNeedsDisplay setLayer
    rw [hl, hupd]
  simp [displayIfNeeded, h, h2]

/-- C6: `displayIfNeeded` first reads and clears `needsDisplay` and returns
with no side effects (the environment unchanged) when it was already false;
consequently two consecutive calls with no intervening mutation dispatch at
most one delegate callback: the first call dispatches at most one and the
second dispatches none. -/
theorem displayIfNeeded_idempotent (e : Env) (this : Nat) :
    ((e.layers this).needs_display = false →
      displayIfNeeded e this = some ⟨e, [], none⟩) ∧
    ∀ r, displayIfNeeded e this = some r →
      displayIfNeeded r.env this = some ⟨r.env, [], none⟩ ∧
      countCallbacks r.events ≤ 1 := by
  refine ⟨displayIfNeeded_noop e this, fun r h => ?_⟩
  obtain ⟨h1, h2⟩ := display_post e this r h
  exact ⟨displayIfNeeded_noop r.env this h1, h2⟩

/-- Witness for C6 at a concrete dirty layer with no delegate. -/
theorem displayIfNeeded_idempotent_witness :
    displayIfNeeded noDelegateEnv 0
        = some ⟨clearNeedsDisplay noDelegateEnv 0, [], none⟩ ∧
    displayIfNeeded (clearNeedsDisplay noDelegateEnv 0) 0
        = some ⟨clearNeedsDisplay noDelegateEnv 0, [], none⟩ ∧
    countCallbacks [] ≤ 1 := by
  have h : displayIfNeeded noDelegateEnv 0
      = some ⟨clearNeedsDisplay noDelegateEnv 0, [], none⟩ := rfl
  have h2 := (displayIfNeeded_idempotent noDelegateEnv 0).2 _ h
  exact ⟨h, h2.1, h2.2⟩

/-- C7: on a dirty layer, delegate-capability resolution proceeds in order:
a nil delegate returns with no allocation and no events; a delegate whose
class defines `displayLayer:` gets exactly that callback and no bitmap work;
a `UIView`-subclass delegate overriding neither `drawRect:` nor
`drawLayer:inContext:` skips rendering entirely, the environment changing
only by the cleared dirty flag (in particular no context is allocated). -/
theorem displayIfNeeded_delegate_resolution (e : Env) (this d : Nat)
    (hnd : (e.layers this).needs_display = true) :
    ((e.layers this).delegate = none →
      displayIfNeeded e this = some ⟨clearNeedsDisplay e this, [], none⟩) ∧
    ((e.layers this).delegate = some d →
      (e.classOf d).has_display_layer = true →
      displayIfNeeded e this
        = some ⟨clearNeedsDisplay e this, [.displayLayer this], none⟩) ∧
    ((e.layers this).delegate = some d →
      (e.classOf d).has_display_layer = false →
      (e.classOf d).is_uiview_subclass = true →
      (e.classOf d).overrides_draw_rect = false →
      (e.classOf d).overrides_draw_layer = false →
      displayIfNeeded e this
        = some ⟨clearNeedsDisplay e this, [.skippedRender], none⟩) := by
  refine ⟨fun h1 => ?_, fun h1 h2 => ?_, fun h1 h2 h3 h4 h5 => ?_⟩
  · simp [displayIfNeeded, hnd, h1]
  · simp [displayIfNeeded, hnd, h1, h2]
  · simp [displayIfNeeded, hnd, h1, h2, h3, h4, h5]

/-- Witness for C7: all three resolution outcomes at concrete environments
(no delegate; a delegate defining `displayLayer:`; a `UIView` delegate with
no drawing override). -/
theorem displayIfNeeded_delegate_resolution_witness :
    ((noDelegateEnv.layers 0).needs_display = true ∧
      displayIfNeeded noDelegateEnv 0
        = some ⟨clearNeedsDisplay noDelegateEnv 0, [], none⟩) ∧
    displayIfNeeded displayLayerEnv 0
      = some ⟨clearNeedsDisplay displayLayerEnv 0, [.displayLayer 0], none⟩ ∧
    displayIfNeeded containerEnv 0
      = some ⟨clearNeedsDisplay containerEnv 0, [.skippedRender], none⟩ :=
  ⟨⟨rfl, (displayIfNeeded_delegate_resolution noDelegateEnv 0 0 rfl).1 rfl⟩,
   (displayIfNeeded_delegate_resolution displayLayerEnv 0 3 rfl).2.1 rfl rfl,
   (displayIfNeeded_delegate_resolution containerEnv 0 3 rfl).2.2 rfl rfl rfl rfl rfl⟩

/-- C1 (evaluating the bitmap path of `displayIfNeeded` at its failing
inputs): with a cached context (id 0) of recorded size 5x5 and bounds 10x10
(rounded size 10x10, a mismatch), the code releases the cached context and
then draws into the very context it released, allocating nothing
(`usedCtx = 0`, released list `[0]`, fresh-context counter still 1) — whereas
the claim requires releasing the stale context and drawing into a newly
allocated one; with a cached context of matching recorded size 10x10, the code
allocates and caches a brand-new context (id 1) instead of reusing the cached
one, which is never released (released list `[]`). The source's
`need_new_context` booleans are inverted. -/
theorem displayIfNeeded_context_cache_inverted :
    roundToUSize (10 : ℚ) = 10 ∧
    mismatchEnv.ctxs 0 = (5, 5) ∧
    (mismatchEnv.layers 0).cg_context = some 0 ∧
    (displayIfNeeded mismatchEnv 0).map
        (fun r => (r.usedCtx, r.env.released_ctxs, r.env.next_ctx,
          (r.env.layers 0).cg_context))
      = some (some 0, [0], 1, some 0) ∧
    matchEnv.ctxs 0 = (10, 10) ∧
    (displayIfNeeded matchEnv 0).map
        (fun r => (r.usedCtx, r.env.released_ctxs, r.env.next_ctx,
          (r.env.layers 0).cg_context))
      = some (some 1, [], 2, some 1) := by
  have h1 : ((10 : ℚ) + 1 / 2) = ((21 : ℤ) : ℚ) / ((2 : ℕ) : ℚ) := by norm_num
  have h2 : Rat.floor ((10 : ℚ) + 1 / 2) = ⌊((21 : ℤ) : ℚ) / ((2 : ℕ) : ℚ)⌋ := by
    rw [← h1]; rfl
  have h10 : roundToUSize (10 : ℚ) = 10 := by
    rw [roundToUSize, h2, Rat.floor_intCast_div_natCast]
    decide
  refine ⟨h10, rfl, rfl, ?_, rfl, ?_⟩
  · simp [displayIfNeeded, mismatchEnv, baseEnv, allocLayer, clearNeedsDisplay,
      setLayer, upd, createLayerContext, CGContextRelease, h10]
  · simp [displayIfNeeded, matchEnv, mismatchEnv, baseEnv, allocLayer,
      clearNeedsDisplay, setLayer, upd, createLayerContext, CGContextRelease, h10]

/-- C2 (evaluating `setBackgroundColor` at its failing input): starting from
`backgroundColor = color 0` (CF count 3) and assigning color 1 (count 5), then
color 2 (count 7): because line 241 overwrites the field before the
`mem::replace`, the "old color" that gets released is the new color itself, so
color 0 is never released (count stays 3 instead of dropping to 2), color 1's
count is already back to 5 after the first assignment (instead of 6), and
color 2 ends at count 7 with no new owner (the claim requires exactly one new
owner, count 8). -/
theorem setBackgroundColor_refcount_eval :
    ((colorEnv.layers 0).background_color = some 0 ∧
      colorEnv.cf_count 0 = 3 ∧ colorEnv.cf_count 1 = 5 ∧
      colorEnv.cf_count 2 = 7) ∧
    ((setBackgroundColor colorEnv 0 (some 1)).layers 0).background_color
      = some 1 ∧
    (setBackgroundColor colorEnv 0 (some 1)).cf_count 0 = 3 ∧
    (setBackgroundColor colorEnv 0 (some 1)).cf_count 1 = 5 ∧
    ((setBackgroundColor (setBackgroundColor colorEnv 0 (some 1)) 0
        (some 2)).layers 0).background_color = some 2 ∧
    (setBackgroundColor (setBackgroundColor colorEnv 0 (some 1)) 0
        (some 2)).cf_count 0 = 3 ∧
    (setBackgroundColor (setBackgroundColor colorEnv 0 (some 1)) 0
        (some 2)).cf_count 1 = 5 ∧
    (setBackgroundColor (setBackgroundColor colorEnv 0 (some 1)) 0
        (some 2)).cf_count 2 = 7 := by
  decide

@[simp]
theorem setLayer_refcount (e : Env) (i : Nat) (l : CALayerHostObject) :
    (setLayer e i l).refcount = e.refcount := rfl

@[simp]
theorem retain_layers (e : Env) (i : Nat) : (retain e i).layers = e.layers := rfl

@[simp]
theorem release_layers (e : Env) (i : Nat) : (release e i).layers = e.layers := rfl

@[simp]
theorem retain_refcount_self (e : Env) (i : Nat) :
    (retain e i).refcount i = e.refcount i + 1 := by
  simp [retain, upd]

@[simp]
theorem release_refcount_self (e : Env) (i : Nat) :
    (release e i).refcount i = e.refcount i - 1 := by
  simp [release, upd]

/-- Writing back the layer one read leaves the environment unchanged. -/
theorem setLayer_self_eq (e : Env) (i : Nat) {l : CALayerHostObject}
    (h : l = e.layers i) : setLayer e i l = e := by
  subst h
  have hupd : upd e.layers i (e.layers i) = e.layers := by
    funext j
    by_cases hj : j = i
    · subst hj; simp [upd]
    · simp [upd, hj]
  unfold setLayer
  rw [hupd]

/-- The `std::mem::take` on `superlayer` does not disturb any `sublayers`
list. -/
theorem take_superlayer_sublayers (e : Env) (c p : Nat) :
    ((setLayer e c { e.layers c with superlayer := none }).layers p).sublayers
      = (e.layers p).sublayers := by
  by_cases hp : p = c
  · subst hp; simp
  · rw [setLayer_layers_ne e _ hp]

/-- A detached layer's `removeFromSuperlayer` is a no-op. -/
theorem remove_noop (e : Env) (c : Nat) (h : (e.layers c).superlayer = none) :
    removeFromSuperlayer e c = some e := by
  have hl : ({ e.layers c with superlayer := none } : CALayerHostObject)
      = e.layers c := by rw [← h]
  simp [removeFromSuperlayer, h, setLayer_self_eq e c hl]

/-- An attached layer missing from its parent's `sublayers` makes
`removeFromSuperlayer` panic. -/
theorem remove_panic (e : Env) (c q : Nat)
    (h1 : (e.layers c).superlayer = some q)
    (h2 : c ∉ (e.layers q).sublayers) :
    removeFromSuperlayer e c = none := by
  simp [removeFromSuperlayer, h1, take_superlayer_sublayers, h2]

/-- Full characterisation of a successful `removeFromSuperlayer` on an
attached layer occurring exactly once in its parent's `sublayers`: the
operation succeeds; only the layer's `superlayer` is cleared; only the
parent's `sublayers` changes, by erasing the layer; only the layer's
reference count changes, by one. -/
theorem remove_ok (e : Env) (c q : Nat)
    (h1 : (e.layers c).superlayer = some q)
    (hmem0 : c ∈ (e.layers q).sublayers) :
    (removeFromSuperlayer e c).isSome = true ∧
    ∀ e2, removeFromSuperlayer e c = some e2 →
      (∀ i, (e2.layers i).superlayer
        = if i = c then none else (e.layers i).superlayer) ∧
      (e2.layers q).sublayers = (e.layers q).sublayers.erase c ∧
      (∀ i, i ≠ q → (e2.layers i).sublayers = (e.layers i).sublayers) ∧
      (∀ i, e2.refcount i = if i = c then e.refcount c - 1 else e.refcount i) := by
  have hmem : c ∈ ((setLayer e c
      { e.layers c with superlayer := none }).layers q).sublayers := by
    rw [take_superlayer_sublayers]
    exact hmem0
  have heval : removeFromSuperlayer e c
      = some (release (setLayer (setLayer e c
          { e.layers c with superlayer := none }) q
          { (setLayer e c { e.layers c with superlayer := none }).layers q with
            sublayers := ((setLayer e c
              { e.layers c with superlayer := none }).layers q).sublayers.erase c })
          c) := by
    simp [removeFromSuperlayer, h1, hmem]
  refine ⟨by rw [heval]; rfl, fun e2 he2 => ?_⟩
  rw [heval] at he2
  injection he2 with he2
  subst he2
  refine ⟨?_, ?_, ?_, ?_⟩
  · intro i
    rw [release_layers]
    by_cases hiq : i = q
    · subst hiq
      rw [setLayer_layers_self]
      by_cases hic : i = c
      · subst hic; simp
      · rw [if_neg hic]
        dsimp only
        rw [setLayer_layers_ne _ _ hic]
    · rw [setLayer_layers_ne _ _ hiq]
      by_cases hic : i = c
      · subst hic; simp
      · rw [if_neg hic, setLayer_layers_ne _ _ hic]
  · rw [release_layers, setLayer_layers_self]
    dsimp only
    exact congrArg (fun l => List.erase l c) (take_superlayer_sublayers e c q)
  · intro i hi
    rw [release_layers, setLayer_layers_ne _ _ hi]
    by_cases hic : i = c
    · subst hic; simp
    · rw [setLayer_layers_ne _ _ hic]
  · intro i
    simp only [release, setLayer, upd]

/-- C5: `removeFromSuperlayer` is a no-op (environment unchanged) when the
layer's `superlayer` is nil; when the layer is attached but — in violation of
the tree invariant — absent from the former parent's `sublayers`, the
`position(..).unwrap()` is a fatal panic; in the invariant-respecting case
(the layer occurs exactly once in its parent's list) the operation succeeds,
clears the layer's `superlayer`, leaves the layer absent from the former
parent's `sublayers`, and decreases the layer's reference count by exactly
one. -/
theorem removeFromSuperlayer_spec (e : Env) (c p : Nat) :
    ((e.layers c).superlayer = none → removeFromSuperlayer e c = some e) ∧
    ((e.layers c).superlayer = some p → c ∉ (e.layers p).sublayers →
      removeFromSuperlayer e c = none) ∧
    ((e.layers c).superlayer = some p → (e.layers p).sublayers.count c = 1 →
      (removeFromSuperlayer e c).isSome = true ∧
      ∀ e1, removeFromSuperlayer e c = some e1 →
        (e1.layers c).superlayer = none ∧
        c ∉ (e1.layers p).sublayers ∧
        e1.refcount c = e.refcount c - 1) := by
  refine ⟨remove_noop e c, remove_panic e c p, fun h1 h2 => ?_⟩
  obtain ⟨hsome, hchar⟩ := remove_ok e c p h1 (List.count_pos_iff.mp (by omega))
  refine ⟨hsome, fun e1 he1 => ?_⟩
  obtain ⟨hsup, herase, _hother, hrc⟩ := hchar e1 he1
  refine ⟨by rw [hsup]; simp, ?_, by rw [hrc]; simp⟩
  rw [herase]
  intro hmem2
  have hpos := List.count_pos_iff.mpr hmem2
  rw [List.count_erase_self, h2] at hpos
  omega

/-- Witness for C5: a concrete two-layer tree (layer 1 attached under layer
0), plus the no-op case on a detached layer. -/
theorem removeFromSuperlayer_spec_witness :
    ((attachedEnv.layers 1).superlayer = some 0 ∧
      (attachedEnv.layers 0).sublayers.count 1 = 1) ∧
    (removeFromSuperlayer attachedEnv 1).isSome = true ∧
    (((removeFromSuperlayer attachedEnv 1).getD baseEnv).layers 1).superlayer
      = none ∧
    1 ∉ (((removeFromSuperlayer attachedEnv 1).getD baseEnv).layers 0).sublayers ∧
    ((removeFromSuperlayer attachedEnv 1).getD baseEnv).refcount 1
      = attachedEnv.refcount 1 - 1 ∧
    ((detachedEnv.layers 1).superlayer = none ∧
      removeFromSuperlayer detachedEnv 1 = some detachedEnv) := by
  have hspec := (removeFromSuperlayer_spec attachedEnv 1 0).2.2 rfl (by decide)
  have hsome := hspec.1
  have heq : removeFromSuperlayer attachedEnv 1
      = some ((removeFromSuperlayer attachedEnv 1).getD baseEnv) := by
    cases hh : removeFromSuperlayer attachedEnv 1 with
    | none => rw [hh] at hsome; simp at hsome
    | some x => rfl
  have hparts := hspec.2 _ heq
  exact ⟨⟨rfl, by decide⟩, hsome, hparts.1, hparts.2.1, hparts.2.2,
    rfl, (removeFromSuperlayer_spec detachedEnv 1 0).1 rfl⟩

/-- Bring-to-front does not change any layer's `superlayer`. -/
theorem bring_superlayer (e : Env) (p c i : Nat) :
    ((bringSublayerToFront e p c).layers i).superlayer
      = (e.layers i).superlayer := by
  by_cases hi : i = p
  · subst hi; simp [bringSublayerToFront]
  · rw [bringSublayerToFront, setLayer_layers_ne _ _ hi]

/-- Bring-to-front does not change any layer's reference count. -/
theorem bring_refcount (e : Env) (p c : Nat) :
    (bringSublayerToFront e p c).refcount = e.refcount := rfl

/-- When the child is already the parent's sublayer (exactly once),
`addSublayer` takes the bring-to-front path: remove-then-append, keeping
the child at a single occurrence, making it last, changing no reference
count. -/
theorem bring_spec (e : Env) (p c : Nat)
    (hsl : (e.layers c).superlayer = some p)
    (hcnt : (e.layers p).sublayers.count c = 1) :
    addSublayer e p c = some (bringSublayerToFront e p c) ∧
    ((bringSublayerToFront e p c).layers p).sublayers
      = ((e.layers p).sublayers.erase c) ++ [c] ∧
    ((bringSublayerToFront e p c).layers p).sublayers.count c = 1 ∧
    (bringSublayerToFront e p c).refcount c = e.refcount c := by
  refine ⟨by simp [addSublayer, hsl], by simp [bringSublayerToFront], ?_, rfl⟩
  simp [bringSublayerToFront, List.count_append, List.count_erase_self, hcnt]

/-- C4: under the documented tree invariants (a layer attached somewhere
occurs exactly once in that parent's `sublayers`, and occurs in a list if and
only if its `superlayer` points there), `addSublayer(P, C)` succeeds, makes
`C`'s superlayer `P` with `C` occurring exactly once in `P.sublayers`; and a
second `addSublayer(P, C)` takes the bring-to-front path: it moves `C` to the
end of `P.sublayers` (remove-then-append) without duplicating it and without
changing `C`'s reference count. -/
theorem addSublayer_spec (e : Env) (p c : Nat)
    (hwf : ∀ q, (e.layers c).superlayer = some q →
      (e.layers q).sublayers.count c = 1)
    (hcnt : (e.layers p).sublayers.count c
      = if (e.layers c).superlayer = some p then 1 else 0) :
    (addSublayer e p c).isSome = true ∧
    ∀ e1, addSublayer e p c = some e1 →
      ((e1.layers c).superlayer = some p ∧
        (e1.layers p).sublayers.count c = 1) ∧
      (addSublayer e1 p c = some (bringSublayerToFront e1 p c) ∧
        ((bringSublayerToFront e1 p c).layers p).sublayers
          = ((e1.layers p).sublayers.erase c) ++ [c] ∧
        ((bringSublayerToFront e1 p c).layers p).sublayers.count c = 1 ∧
        (bringSublayerToFront e1 p c).refcount c = e1.refcount c) := by
  by_cases hsl : (e.layers c).superlayer = some p
  · have hc1 : (e.layers p).sublayers.count c = 1 := by rw [hcnt, if_pos hsl]
    obtain ⟨heval, _hsubs, hcnt1, _hrc⟩ := bring_spec e p c hsl hc1
    refine ⟨by rw [heval]; rfl, fun e1 he1 => ?_⟩
    rw [heval] at he1
    injection he1 with he1
    subst he1
    have hsup : ((bringSublayerToFront e p c).layers c).superlayer = some p := by
      rw [bring_superlayer]; exact hsl
    exact ⟨⟨hsup, hcnt1⟩, bring_spec _ p c hsup hcnt1⟩
  · have hcz : (e.layers p).sublayers.count c = 0 := by rw [hcnt, if_neg hsl]
    cases hslc : (e.layers c).superlayer with
    | none =>
      have hrm : removeFromSuperlayer (retain e c) c = some (retain e c) :=
        remove_noop _ _ (by rw [retain_layers]; exact hslc)
      refine ⟨by simp [addSublayer, hsl, hrm], fun e1 he1 => ?_⟩
      simp only [addSublayer, if_neg hsl, hrm] at he1
      injection he1 with he1
      subst he1
      have hsup : ∀ eA : Env, (eA.layers c).superlayer = some p →
          ((setLayer eA p { eA.layers p with
            sublayers := (eA.layers p).sublayers ++ [c] }).layers c).superlayer
            = some p := by
        intro eA hA
        by_cases hpc : c = p
        · subst hpc; simp; rw [← hA]
        · rw [setLayer_layers_ne _ _ hpc]; exact hA
      have hmid : ((setLayer (retain e c) c
          { (retain e c).layers c with superlayer := some p }).layers c).superlayer
            = some p := by simp
      have hsubs_mid : ((setLayer (retain e c) c
          { (retain e c).layers c with superlayer := some p }).layers p).sublayers
            = (e.layers p).sublayers := by
        by_cases hpc : p = c
        · subst hpc; simp
        · rw [setLayer_layers_ne _ _ hpc, retain_layers]
      constructor
      · constructor
        · exact hsup _ hmid
        · rw [setLayer_layers_self]
          dsimp only
          rw [hsubs_mid, List.count_append, hcz]
          simp
      · have hsup2 : _ := hsup _ hmid
        have hcnt2 : ((setLayer (setLayer (retain e c) c
            { (retain e c).layers c with superlayer := some p }) p
            { (setLayer (retain e c) c
              { (retain e c).layers c with superlayer := some p }).layers p with
              sublayers := ((setLayer (retain e c) c
                { (retain e c).layers c with
                  superlayer := some p }).layers p).sublayers ++ [c] }).layers
              p).sublayers.count c = 1 := by
          rw [setLayer_layers_self]
          dsimp only
          rw [hsubs_mid, List.count_append, hcz]
          simp
        exact bring_spec _ p c hsup2 hcnt2
    | some q =>
      have hqp : q ≠ p := fun hh => hsl (by rw [hslc, hh])
      have hcq : (e.layers q).sublayers.count c = 1 := hwf q hslc
      obtain ⟨hsome, hchar⟩ := remove_ok (retain e c) c q
        (by rw [retain_layers]; exact hslc)
        (by rw [retain_layers]; exact List.count_pos_iff.mp (by omega))
      cases hrm : removeFromSuperlayer (retain e c) c with
      | none => rw [hrm] at hsome; simp at hsome
      | some e2 =>
        obtain ⟨_hsupc, _herq, hother, _hrc⟩ := hchar e2 hrm
        have hsubs2 : (e2.layers p).sublayers = (e.layers p).sublayers := by
          rw [hother p (Ne.symm hqp), retain_layers]
        refine ⟨by simp [addSublayer, hsl, hrm], fun e1 he1 => ?_⟩
        simp only [addSublayer, if_neg hsl, hrm] at he1
        injection he1 with he1
        subst he1
        have hmid : ((setLayer e2 c
            { e2.layers c with superlayer := some p }).layers c).superlayer
              = some p := by simp
        have hsup2 : ((setLayer (setLayer e2 c
            { e2.layers c with superlayer := some p }) p
            { (setLayer e2 c
              { e2.layers c with superlayer := some p }).layers p with
              sublayers := ((setLayer e2 c
                { e2.layers c with
                  superlayer := some p }).layers p).sublayers ++ [c] }).layers
              c).superlayer = some p := by
          by_cases hpc : c = p
          · subst hpc; simp
          · rw [setLayer_layers_ne _ _ hpc]; exact hmid
        have hsubs_mid : ((setLayer e2 c
            { e2.layers c with superlayer := some p }).layers p).sublayers
              = (e.layers p).sublayers := by
          by_cases hpc : p = c
          · subst hpc; simp
            rw [← hsubs2]
          · rw [setLayer_layers_ne _ _ hpc, hsubs2]
        have hcnt2 : ((setLayer (setLayer e2 c
            { e2.layers c with superlayer := some p }) p
            { (setLayer e2 c
              { e2.layers c with superlayer := some p }).layers p with
              sublayers := ((setLayer e2 c
                { e2.layers c with
                  superlayer := some p }).layers p).sublayers ++ [c] }).layers
              p).sublayers.count c = 1 := by
          rw [setLayer_layers_self]
          dsimp only
          rw [hsubs_mid, List.count_append, hcz]
          simp
        exact ⟨⟨hsup2, hcnt2⟩, bring_spec _ p c hsup2 hcnt2⟩

/-- Witness for C4: attach detached layer 1 under layer 0, then attach it
again (the bring-to-front path). -/
theorem addSublayer_spec_witness :
    (addSublayer detachedEnv 0 1).isSome = true ∧
    (((addSublayer detachedEnv 0 1).getD baseEnv).layers 1).superlayer
      = some 0 ∧
    (((addSublayer detachedEnv 0 1).getD baseEnv).layers 0).sublayers.count 1
      = 1 ∧
    addSublayer ((addSublayer detachedEnv 0 1).getD baseEnv) 0 1
      = some (bringSublayerToFront
          ((addSublayer detachedEnv 0 1).getD baseEnv) 0 1) ∧
    ((bringSublayerToFront ((addSublayer detachedEnv 0 1).getD baseEnv) 0
        1).layers 0).sublayers
      = ((((addSublayer detachedEnv 0 1).getD baseEnv).layers
          0).sublayers.erase 1) ++ [1] ∧
    ((bringSublayerToFront ((addSublayer detachedEnv 0 1).getD baseEnv) 0
        1).layers 0).sublayers.count 1 = 1 ∧
    (bringSublayerToFront ((addSublayer detachedEnv 0 1).getD baseEnv) 0
        1).refcount 1
      = ((addSublayer detachedEnv 0 1).getD baseEnv).refcount 1 := by
  have h := addSublayer_spec detachedEnv 0 1
    (by intro q hq; simp [detachedEnv, baseEnv, allocLayer] at hq)
    (by decide)
  have heq : addSublayer detachedEnv 0 1
      = some ((addSublayer detachedEnv 0 1).getD baseEnv) := rfl
  obtain ⟨⟨h1, h2⟩, h3, h4, h5, h6⟩ := h.2 _ heq
  exact ⟨h.1, h1, h2, h3, h4, h5, h6⟩

/-- Transitivity of `superlayer`-chain reachability. -/
theorem reach_trans {s : Nat → Option Nat} {a b c : Nat}
    (h1 : Reach s a b) (h2 : Reach s b c) : Reach s a c := by
  induction h1 with
  | single h => exact Reach.head h h2
  | head h _ ih => exact Reach.head h (ih h2)

/-- Reachability is monotone along edge inclusion. -/
theorem reach_mono {s t : Nat → Option Nat}
    (hst : ∀ i j, s i = some j → t i = some j) {x y : Nat}
    (h : Reach s x y) : Reach t x y := by
  induction h with
  | single h => exact Reach.single (hst _ _ h)
  | head h _ ih => exact Reach.head (hst _ _ h) ih

/-- A path in the graph with the single edge `c ↦ p` redirected either exists
already, or decomposes around that edge. -/
theorem reach_update_cases {s : Nat → Option Nat} {c p x y : Nat}
    (h : Reach (upd s c (some p)) x y) :
    Reach s x y ∨ ((x = c ∨ Reach s x c) ∧ (y = p ∨ Reach s p y)) := by
  induction h with
  | @single i j h =>
    rw [upd] at h
    by_cases hic : i = c
    · rw [if_pos hic] at h
      injection h with h
      exact Or.inr ⟨Or.inl hic, Or.inl h.symm⟩
    · rw [if_neg hic] at h
      exact Or.inl (Reach.single h)
  | @head i j k h hr ih =>
    rw [upd] at h
    by_cases hic : i = c
    · rw [if_pos hic] at h
      injection h with h
      subst h
      cases ih with
      | inl hik => exact Or.inr ⟨Or.inl hic, Or.inr hik⟩
      | inr hik => exact Or.inr ⟨Or.inl hic, hik.2⟩
    · rw [if_neg hic] at h
      cases ih with
      | inl hik => exact Or.inl (Reach.head h hik)
      | inr hik =>
        rcases hik with ⟨hj, hk⟩
        refine Or.inr ⟨?_, hk⟩
        cases hj with
        | inl hj =>
          rw [hj] at h
          exact Or.inr (Reach.single h)
        | inr hj => exact Or.inr (Reach.head h hj)

/-- Redirecting `c`'s parent edge to `p` preserves acyclicity as long as `c`
is neither `p` nor an ancestor of `p`. -/
theorem acyclic_update {s : Nat → Option Nat} {c p : Nat}
    (hacy : ∀ i, ¬ Reach s i i) (hne : p ≠ c) (hnr : ¬ Reach s p c) :
    ∀ x, ¬ Reach (upd s c (some p)) x x := by
  intro x hx
  rcases reach_update_cases hx with h | ⟨h1, h2⟩
  · exact hacy x h
  · rcases h1 with h1 | h1 <;> rcases h2 with h2 | h2
    · exact hne (by rw [← h2, h1])
    · exact hnr (h1 ▸ h2)
    · exact hnr (h2 ▸ h1)
    · exact hnr (reach_trans h2 h1)

/-- Deleting `c`'s parent edge preserves acyclicity. -/
theorem acyclic_clear {s : Nat → Option Nat} (hacy : ∀ i, ¬ Reach s i i)
    (c : Nat) : ∀ x, ¬ Reach (upd s c none) x x := by
  intro x hx
  apply hacy x
  refine reach_mono ?_ hx
  intro i j h
  rw [upd] at h
  by_cases hic : i = c
  · rw [if_pos hic] at h
    exact absurd h (by simp)
  · rw [if_neg hic] at h
    exact h

/-- A successful `removeFromSuperlayer` acts on the parent-edge map by
deleting the layer's edge. -/
theorem superF_remove (e : Env) (c : Nat) (e2 : Env)
    (h : removeFromSuperlayer e c = some e2) :
    superF e2 = upd (superF e) c none := by
  cases hsl : (e.layers c).superlayer with
  | none =>
    rw [remove_noop e c hsl] at h
    injection h with h
    subst h
    funext i
    by_cases hic : i = c
    · subst hic
      simp [upd, superF, hsl]
    · simp [upd, superF, hic]
  | some q =>
    by_cases hmem : c ∈ (e.layers q).sublayers
    · obtain ⟨_, hchar⟩ := remove_ok e c q hsl hmem
      obtain ⟨hsup, _, _, _⟩ := hchar e2 h
      funext i
      rw [superF]
      rw [hsup i]
      rfl
    · rw [remove_panic e c q hsl hmem] at h
      exact absurd h (by simp)

/-- A successful `addSublayer` through its reparenting branch acts on the
parent-edge map by redirecting the child's edge to the new parent. -/
theorem superF_add (e : Env) (p c : Nat)
    (hsl : (e.layers c).superlayer ≠ some p) (e1 : Env)
    (h : addSublayer e p c = some e1) :
    superF e1 = upd (superF e) c (some p) := by
  simp only [addSublayer, if_neg hsl] at h
  cases hrm : removeFromSuperlayer (retain e c) c with
  | none =>
    rw [hrm] at h
    exact absurd h (by simp)
  | some e2 =>
    rw [hrm] at h
    injection h with h
    subst h
    have hs2 : superF e2 = upd (superF (retain e c)) c none :=
      superF_remove _ _ _ hrm
    have hs2j : ∀ j, (e2.layers j).superlayer
        = if j = c then none else (e.layers j).superlayer := by
      intro j
      have := congrFun hs2 j
      rw [superF] at this
      rw [this]
      rfl
    funext i
    show ((setLayer (setLayer e2 c
      { e2.layers c with superlayer := some p }) p
      { (setLayer e2 c { e2.layers c with superlayer := some p }).layers p with
        sublayers := ((setLayer e2 c { e2.layers c with
          superlayer := some p }).layers p).sublayers ++ [c] }).layers
        i).superlayer = upd (superF e) c (some p) i
    by_cases hip : i = p
    · subst hip
      rw [setLayer_layers_self]
      dsimp only
      by_cases hic : i = c
      · subst hic
        rw [setLayer_layers_self]
        dsimp only
        rw [upd, if_pos rfl]
      · rw [setLayer_layers_ne _ _ hic, hs2j i, if_neg hic, upd, if_neg hic]
        rfl
    · rw [setLayer_layers_ne _ _ hip]
      by_cases hic : i = c
      · subst hic
        rw [setLayer_layers_self]
        dsimp only
        rw [upd, if_pos rfl]
      · rw [setLayer_layers_ne _ _ hic, hs2j i, if_neg hic, upd, if_neg hic]
        rfl

/-- Bring-to-front does not touch the parent-edge map at all. -/
theorem superF_bring (e : Env) (p c : Nat) :
    superF (bringSublayerToFront e p c) = superF e :=
  funext fun i => bring_superlayer e p c i

/-- The baseline environment has no parent edge, hence no reachability. -/
theorem no_reach_detachedEnv (a b : Nat) :
    ¬ Reach (superF detachedEnv) a b := by
  intro h
  cases h with
  | single h => simp [superF, detachedEnv, baseEnv, allocLayer] at h
  | head h _ => simp [superF, detachedEnv, baseEnv, allocLayer] at h

/-- The baseline environment is acyclic. -/
theorem acyclic_detachedEnv : AcyclicE detachedEnv :=
  fun i => no_reach_detachedEnv i i

/-- C8 (counterexample to the claim as stated, at parent = child):
starting from an acyclic environment, `addSublayer(L, L)` succeeds and makes
layer `L` its own superlayer, a cycle in the tree — so acyclicity does not
hold "for every choice of parent and child arguments, including
parent == child". -/
theorem addSublayer_self_cycle_counterexample :
    AcyclicE detachedEnv ∧
    addSublayer detachedEnv 0 0
      = some ((addSublayer detachedEnv 0 0).getD baseEnv) ∧
    Reach (superF ((addSublayer detachedEnv 0 0).getD baseEnv)) 0 0 ∧
    ¬ AcyclicE ((addSublayer detachedEnv 0 0).getD baseEnv) := by
  refine ⟨acyclic_detachedEnv, rfl, Reach.single rfl, fun hacy => ?_⟩
  exact hacy 0 (Reach.single rfl)

/-- C8 (amended): every layer has at most one superlayer by representation
(the `superlayer` field is a single optional reference), and the layer tree
stays acyclic under `removeFromSuperlayer` unconditionally and under
`addSublayer(P, C)` provided `C` is neither `P` itself nor an ancestor of `P`
(the reparenting branch first detaches `C`, then attaches it to `P`). -/
theorem tree_acyclicity_preserved (e : Env) (p c : Nat)
    (hacy : AcyclicE e) (hne : p ≠ c)
    (hnanc : ¬ Reach (superF e) p c) :
    (∀ e1, addSublayer e p c = some e1 → AcyclicE e1) ∧
    (∀ x e2, removeFromSuperlayer e x = some e2 → AcyclicE e2) := by
  constructor
  · intro e1 h
    by_cases hsl : (e.layers c).superlayer = some p
    · simp only [addSublayer, if_pos hsl] at h
      injection h with h
      subst h
      intro i hx
      rw [superF_bring] at hx
      exact hacy i hx
    · have hchar := superF_add e p c hsl e1 h
      intro i hx
      rw [hchar] at hx
      exact acyclic_update hacy hne hnanc i hx
  · intro x e2 h
    have hchar := superF_remove e x e2 h
    intro i hx
    rw [hchar] at hx
    exact acyclic_clear hacy x i hx

/-- Witness for C8's amended statement: attaching detached layer 0 under
layer 1 keeps the tree acyclic, as does a (no-op) removal. -/
theorem tree_acyclicity_preserved_witness :
    AcyclicE detachedEnv ∧ (1 : Nat) ≠ 0 ∧
    addSublayer detachedEnv 1 0
      = some ((addSublayer detachedEnv 1 0).getD baseEnv) ∧
    AcyclicE ((addSublayer detachedEnv 1 0).getD baseEnv) ∧
    removeFromSuperlayer detachedEnv 0 = some detachedEnv ∧
    AcyclicE detachedEnv := by
  have h := tree_acyclicity_preserved detachedEnv 1 0 acyclic_detachedEnv
    (by decide) (no_reach_detachedEnv 1 0)
  have heq : addSublayer detachedEnv 1 0
      = some ((addSublayer detachedEnv 1 0).getD baseEnv) := rfl
  have hrm : removeFromSuperlayer detachedEnv 0 = some detachedEnv :=
    remove_noop _ _ rfl
  exact ⟨acyclic_detachedEnv, by decide, heq, h.1 _ heq, hrm,
    h.2 0 detachedEnv hrm⟩

/-- Clearing superlayers along the teardown loop: every layer in the list
ends up detached, and once detached stays detached. -/
theorem detach_fold_clears (subs : List Nat) :
    ∀ acc : Env, ∀ c,
      ((acc.layers c).superlayer = none ∨ c ∈ subs) →
      (((subs.foldl detachSublayer acc).layers c).superlayer = none) := by
  induction subs with
  | nil =>
    intro acc c hc
    rcases hc with hc | hc
    · exact hc
    · exact absurd hc (by simp)
  | cons s rest ih =>
    intro acc c hc
    rw [List.foldl_cons]
    by_cases hcs : c = s
    · subst hcs
      refine ih _ c (Or.inl ?_)
      rw [detachSublayer, release_layers, setLayer_layers_self]
    · rcases hc with hc | hc
      · refine ih _ c (Or.inl ?_)
        rw [detachSublayer, release_layers, setLayer_layers_ne _ _ hcs]
        exact hc
      · rcases List.mem_cons.mp hc with hc2 | hc2
        · exact absurd hc2 hcs
        · exact ih _ c (Or.inr hc2)

/-- C9 (amended): `dealloc` is fatal (the `assert!(superlayer == nil)`
panics) exactly when the layer being destroyed is still attached to a
superlayer; destroying a layer that merely still has sublayers succeeds
silently, detaching every remaining sublayer (each child's weak back-reference
is cleared) and releasing it. -/
theorem dealloc_attached_fatal (e : Env) (this : Nat) :
    (dealloc e this = none ↔ (e.layers this).superlayer ≠ none) ∧
    (∀ e1, dealloc e this = some e1 →
      ∀ c ∈ (e.layers this).sublayers, (e1.layers c).superlayer = none) := by
  constructor
  · simp only [dealloc]
    split
    · next hcond => simpa using hcond
    · next hcond => simpa using hcond
  · intro e1 h c hc
    simp only [dealloc] at h
    split at h
    · exact absurd h (by simp)
    · injection h with h
      subst h
      dsimp only
      exact detach_fold_clears _ _ c (Or.inr hc)

/-- Witness for C9's amended statement: destroying the still-attached layer 1
panics; destroying layer 0, which still has sublayer 1, succeeds and detaches
the child. -/
theorem dealloc_attached_fatal_witness :
    dealloc attachedEnv 1 = none ∧
    dealloc attachedEnv 0 = some ((dealloc attachedEnv 0).getD baseEnv) ∧
    (((dealloc attachedEnv 0).getD baseEnv).layers 1).superlayer = none := by
  refine ⟨(dealloc_attached_fatal attachedEnv 1).1.mpr (by decide), rfl, ?_⟩
  exact (dealloc_attached_fatal attachedEnv 0).2 _ rfl 1 (by decide)

/-- C9 (counterexample to the claim as stated): layer 0 still has sublayer 1
attached, yet `dealloc` on it succeeds silently (and even releases the child:
its reference count drops from 1 to 0) instead of being rejected as fatal. -/
theorem dealloc_with_sublayer_counterexample :
    (attachedEnv.layers 0).sublayers = [1] ∧
    (attachedEnv.layers 0).superlayer = none ∧
    (dealloc attachedEnv 0).isSome = true ∧
    ((dealloc attachedEnv 0).getD baseEnv).refcount 1 = 0 := by
  refine ⟨rfl, rfl, rfl, by decide⟩

end CALayerModel

namespace PosixIOModel

/-- Unpacking a successful descriptor-to-index conversion. -/
theorem fd_to_file_idx_some {fd : Int} {idx : Nat}
    (h : fd_to_file_idx fd = some idx) :
    ¬ (fd - NORMAL_FILENO_BASE < -(2 ^ 31)) ∧
    idx = ((fd - NORMAL_FILENO_BASE) % 2 ^ 64).toNat := by
  unfold fd_to_file_idx at h
  split at h
  · exact absurd h (by simp)
  · next hc =>
    injection h with h
    exact ⟨hc, h.symm⟩

/-- C10: for any `i32` descriptor and any table of at most `2^31` slots (any
real table is far smaller, since descriptors are `i32`), calling `read` or
`close` on a descriptor that is not currently open is a host panic, never a
`-1` return; every descriptor below `NORMAL_FILENO_BASE = 3` is of that kind;
and the `-1` sentinel is produced only for a failure of the underlying file
operation (`GuestFile::read` / `sync_all`) on a currently open descriptor. -/
theorem posix_fd_lifecycle (st : List (Option PosixFileHostObject)) (fd : Int)
    (io : Except Unit Nat) (syncOk : Bool)
    (hfd : -(2 ^ 31) ≤ fd ∧ fd < 2 ^ 31)
    (hlen : st.length ≤ 2 ^ 31) :
    (fdIsOpenB st fd = false →
      read st fd io = .panic ∧ close st fd syncOk = .panic) ∧
    (fd < NORMAL_FILENO_BASE → fdIsOpenB st fd = false) ∧
    (read st fd io = .ret (-1) → fdIsOpenB st fd = true ∧ io = .error ()) ∧
    ((close st fd syncOk).retval = some (-1) →
      fdIsOpenB st fd = true ∧ syncOk = false) := by
  cases hidx : fd_to_file_idx fd with
  | none =>
    refine ⟨fun _ => ⟨by simp [read, hidx], by simp [close, hidx]⟩,
      fun _ => by simp [fdIsOpenB, hidx], ?_, ?_⟩
    · intro h
      simp [read, hidx] at h
    · intro h
      simp [close, hidx, CloseRet.retval] at h
  | some idx =>
    obtain ⟨hnosub, hidxval⟩ := fd_to_file_idx_some hidx
    cases hslot : st[idx]? with
    | none =>
      refine ⟨fun _ => ⟨by simp [read, hidx, hslot], by simp [close, hidx, hslot]⟩,
        fun _ => by simp [fdIsOpenB, hidx, hslot], ?_, ?_⟩
      · intro h
        simp [read, hidx, hslot] at h
      · intro h
        simp [close, hidx, hslot, CloseRet.retval] at h
    | some o =>
      cases o with
      | none =>
        refine ⟨fun _ => ⟨by simp [read, hidx, hslot], by simp [close, hidx, hslot]⟩,
          fun _ => by simp [fdIsOpenB, hidx, hslot], ?_, ?_⟩
        · intro h
          simp [read, hidx, hslot] at h
        · intro h
          simp [close, hidx, hslot, CloseRet.retval] at h
      | some f =>
        have hopen : fdIsOpenB st fd = true := by simp [fdIsOpenB, hidx, hslot]
        refine ⟨fun hfalse => ?_, fun hbelow => ?_, ?_, ?_⟩
        · rw [hopen] at hfalse
          exact absurd hfalse (by simp)
        · exfalso
          have hlt : idx < st.length := by
            by_contra hge
            rw [List.getElem?_eq_none (by omega)] at hslot
            exact Option.noConfusion hslot
          rw [NORMAL_FILENO_BASE] at hbelow hnosub hidxval
          omega
        · intro h
          refine ⟨hopen, ?_⟩
          simp only [read, hidx, hslot] at h
          cases io with
          | ok n =>
            dsimp only at h
            by_cases hn : n < 2 ^ 31
            · rw [if_pos hn] at h
              injection h with h
              exfalso
              omega
            · rw [if_neg hn] at h
              exact absurd h (by simp)
          | error u =>
            cases u
            rfl
        · intro h
          refine ⟨hopen, ?_⟩
          simp only [close, hidx, hslot, CloseRet.retval] at h
          cases syncOk with
          | true =>
            rw [if_pos rfl] at h
            injection h with h
            exact absurd h (by norm_num)
          | false => rfl

/-- Witness for C10: descriptor 0 (stdin's number, below the base 3) against a
table with one open file: not open, and both `read` and `close` panic. -/
theorem posix_fd_lifecycle_witness :
    ((-(2 ^ 31) ≤ (0 : Int)) ∧ ((0 : Int) < 2 ^ 31)) ∧
    testTable.length ≤ 2 ^ 31 ∧
    fdIsOpenB testTable 0 = false ∧
    read testTable 0 (.ok 0) = .panic ∧
    close testTable 0 true = .panic := by
  have h := posix_fd_lifecycle testTable 0 (.ok 0) true
    ⟨by decide, by decide⟩ (by decide)
  obtain ⟨hpanic, hbelow, _, _⟩ := h
  have hopen := hbelow (by decide)
  obtain ⟨hr, hc⟩ := hpanic hopen
  exact ⟨⟨by decide, by decide⟩, by decide, hopen, hr, hc⟩

end PosixIOModel
